import Mathlib

/-!
Verification of the dense_index library (src/dense_index.hpp) against its
natural-language specification.

The embedding follows the generic version of the header, the one
parameterised over an arbitrary strong-index type (`StrongIndexType`
concept, `get_index_value` helper, `DenseIndexedContainer<Container,
IndexType>`):

* `StrongIndex Tag` embeds `dense_index::StrongIndex<Tag>`: a single
  `std::size_t` field `value_`.  `std::size_t` is modelled as a natural
  number; every arithmetic operation reduces modulo `2 ^ 64` exactly where
  the C++ unsigned arithmetic wraps.
* `StrongIndexOps ι` embeds the interface the `StrongIndexType` concept
  inspects on a bound index type: an explicit constructor from `size_t`
  and the three optional raw-position accessors (a get-shaped method, a
  value-shaped method, a numeric conversion).
* `DenseIndexedContainer α ι` embeds the adapter over a growable sequence
  container (`std::vector`-like), modelled as a `List α`.  Operations
  whose C++ counterpart has undefined behaviour out of range return
  `Option` (with `none` standing for the undefined case).
* `ContainerShape` embeds the compile-time capability facts the header's
  concepts (`HasAt`, `HasPushBack`, ..., `IndexableContainer`) derive from
  a container type; each field records whether the corresponding
  structural predicate holds for the container.
-/

namespace DenseIndex

/-- The modulus of `std::size_t` arithmetic on the 64-bit targets the
repository builds for (`-march=native`, LP64): unsigned wraparound is
arithmetic modulo `2 ^ 64`. -/
def sizeTMod : Nat := 2 ^ 64

/-- `dense_index::StrongIndex<Tag>`: a domain-tagged wrapper holding one
raw position `value_ : std::size_t`. -/
structure StrongIndex (Tag : Type) where
  value_ : Nat
deriving DecidableEq, Repr

namespace StrongIndex

variable {Tag : Type}

/-- `value()`: explicit accessor for the raw position. -/
def value (i : StrongIndex Tag) : Nat := i.value_

/-- `get()`: accessor provided for compatibility with the generic strong
type concept; returns the same raw position as `value()`. -/
def get (i : StrongIndex Tag) : Nat := i.value_

/-- `operator std::size_t()`: explicit numeric conversion. -/
def toSizeT (i : StrongIndex Tag) : Nat := i.value_

/-- Pre-increment `++i`: `++value_; return *this`.  Result is the pair
(new state, returned index); the returned index is the updated one. -/
def preInc (i : StrongIndex Tag) : StrongIndex Tag × StrongIndex Tag :=
  let j : StrongIndex Tag := ⟨(i.value_ + 1) % sizeTMod⟩
  (j, j)

/-- Post-increment `i++`: `tmp = *this; ++value_; return tmp`.  Result is
the pair (new state, returned index); the returned index is the original
copy. -/
def postInc (i : StrongIndex Tag) : StrongIndex Tag × StrongIndex Tag :=
  (⟨(i.value_ + 1) % sizeTMod⟩, i)

/-- Pre-decrement `--i`: `--value_; return *this`.  Unsigned `--` at zero
wraps to `2 ^ 64 - 1`. -/
def preDec (i : StrongIndex Tag) : StrongIndex Tag × StrongIndex Tag :=
  let j : StrongIndex Tag := ⟨(i.value_ + (sizeTMod - 1)) % sizeTMod⟩
  (j, j)

/-- Post-decrement `i--`: `tmp = *this; --value_; return tmp`. -/
def postDec (i : StrongIndex Tag) : StrongIndex Tag × StrongIndex Tag :=
  (⟨(i.value_ + (sizeTMod - 1)) % sizeTMod⟩, i)

/-- `operator+(underlying_type n)`: `StrongIndex(value_ + n)` with
unsigned wraparound. -/
def addOffset (i : StrongIndex Tag) (n : Nat) : StrongIndex Tag :=
  ⟨(i.value_ + n) % sizeTMod⟩

/-- `operator-(underlying_type n)`: `StrongIndex(value_ - n)` with
unsigned wraparound: `value_ - n` on `size_t` is
`value_ + (2^64 - n mod 2^64)` modulo `2^64`. -/
def subOffset (i : StrongIndex Tag) (n : Nat) : StrongIndex Tag :=
  ⟨(i.value_ + (sizeTMod - n % sizeTMod)) % sizeTMod⟩

/-- `operator+=`: same arithmetic as `operator+`, mutating in place. -/
def addAssign (i : StrongIndex Tag) (n : Nat) : StrongIndex Tag :=
  i.addOffset n

/-- `operator-=`: same arithmetic as `operator-`, mutating in place. -/
def subAssign (i : StrongIndex Tag) (n : Nat) : StrongIndex Tag :=
  i.subOffset n

/-- `operator-(StrongIndex other)`: signed difference of the two raw
positions as `std::ptrdiff_t`. -/
def diff (i j : StrongIndex Tag) : Int :=
  (i.value_ : Int) - (j.value_ : Int)

end StrongIndex

/-- The interface the `StrongIndexType` concept inspects on a bound index
type `ι`: construction from a `std::size_t` (`T{n}`), and the three
optional raw-position accessors — a get-shaped method, a value-shaped
method, and a numeric conversion to `std::size_t`.  A field is `none`
when the C++ type does not provide that accessor form. -/
structure StrongIndexOps (ι : Type) where
  make : Nat → ι
  getFn : Option (ι → Nat)
  valueFn : Option (ι → Nat)
  convFn : Option (ι → Nat)

/-- The `StrongIndexType` concept's accessor requirement: at least one of
the three extraction forms is present.  (The concept additionally rejects
raw integral types; that is a type-level fact with no runtime content.) -/
def StrongIndexTypeOk {ι : Type} (S : StrongIndexOps ι) : Prop :=
  S.getFn.isSome ∨ S.valueFn.isSome ∨ S.convFn.isSome

/-- `get_index_value`: reads the raw position out of a strong-index value,
trying `idx.get()` first, else `idx.value()`, else
`static_cast<std::size_t>(idx)`.  The final `0` arm is unreachable for
types satisfying the `StrongIndexType` concept and has no C++
counterpart (such a type fails to instantiate). -/
def get_index_value {ι : Type} (S : StrongIndexOps ι) (idx : ι) : Nat :=
  match S.getFn with
  | some g => g idx
  | none =>
    match S.valueFn with
    | some v => v idx
    | none =>
      match S.convFn with
      | some c => c idx
      | none => 0

/-- The accessor interface of the built-in `StrongIndex<Tag>`: it provides
all three extraction forms (`get()`, `value()` and the explicit
conversion), all returning `value_`, and is explicitly constructible from
a raw position. -/
def StrongIndex.ops (Tag : Type) : StrongIndexOps (StrongIndex Tag) where
  make := StrongIndex.mk
  getFn := some StrongIndex.get
  valueFn := some StrongIndex.value
  convFn := some StrongIndex.toSizeT

/-- `dense_index::DenseIndexedContainer<Container, IndexType>` over a
growable sequence container (`std::vector`-like): owns exactly one
underlying container, modelled as a `List` of elements in positional
order. -/
structure DenseIndexedContainer (α : Type) (ι : Type) where
  container_ : List α
deriving DecidableEq, Repr

namespace DenseIndexedContainer

variable {α ι : Type}

/-- `size()`: forwards to `container_.size()`. -/
def size (d : DenseIndexedContainer α ι) : Nat := d.container_.length

/-- `underlying()`: the escape hatch returning the owned container. -/
def underlying (d : DenseIndexedContainer α ι) : List α := d.container_

/-- `operator[](index_type idx)`: `container_[get_index_value(idx)]`.
Out-of-range access is undefined behaviour in C++ (unchecked positional
indexing); the model returns `none` there. -/
def opIndex (S : StrongIndexOps ι) (d : DenseIndexedContainer α ι) (idx : ι) :
    Option α :=
  d.container_[get_index_value S idx]?

/-- `at(index_type idx)`: `container_.at(get_index_value(idx))`.  The
underlying `std::vector::at` returns the element when the position is in
range and raises `std::out_of_range` otherwise; `none` models the raised
bounds-violation condition. -/
def at_ (S : StrongIndexOps ι) (d : DenseIndexedContainer α ι) (idx : ι) :
    Option α :=
  d.container_[get_index_value S idx]?

/-- `push_back(value)`: `container_.push_back(value); return
index_type(container_.size() - 1)`.  Result is the pair (new adapter
state, returned index). -/
def push_back (S : StrongIndexOps ι) (d : DenseIndexedContainer α ι) (v : α) :
    DenseIndexedContainer α ι × ι :=
  let c := d.container_ ++ [v]
  (⟨c⟩, S.make (c.length - 1))

/-- `emplace_back(args...)`: constructs the element in place at the end
and returns `index_type(container_.size() - 1)` — the same return
convention as `push_back`.  The model takes the constructed element. -/
def emplace_back (S : StrongIndexOps ι) (d : DenseIndexedContainer α ι)
    (v : α) : DenseIndexedContainer α ι × ι :=
  let c := d.container_ ++ [v]
  (⟨c⟩, S.make (c.length - 1))

/-- `pop_back()`: forwards to `container_.pop_back()` (no return value).
Undefined behaviour on an empty container, hence `Option`. -/
def pop_back (d : DenseIndexedContainer α ι) :
    Option (DenseIndexedContainer α ι) :=
  match d.container_ with
  | [] => none
  | l => some ⟨l.dropLast⟩

/-- `insert(index_type pos, value)`: forms the iterator `begin() + raw`
with `raw = get_index_value(pos)` (valid only for `raw ≤ size`), performs
the positional insert, and returns
`index_type(distance(begin(), result_it))`; for a growable sequence the
insert result iterator sits `raw` past the (possibly reallocated)
beginning.  `none` models the undefined behaviour when `raw > size`. -/
def insert (S : StrongIndexOps ι) (d : DenseIndexedContainer α ι) (pos : ι)
    (v : α) : Option (DenseIndexedContainer α ι × ι) :=
  let raw := get_index_value S pos
  if raw ≤ d.container_.length then
    some (⟨d.container_.insertIdx raw v⟩, S.make raw)
  else none

/-- `erase(index_type pos)`: forms the iterator `begin() + raw` (which
must be dereferenceable, i.e. `raw < size`), erases the element there,
and returns `index_type(distance(begin(), result_it))`; the sequence
container's erase result iterator sits `raw` past the beginning of the
shrunk container.  `none` models the undefined behaviour when
`raw ≥ size`. -/
def erase (S : StrongIndexOps ι) (d : DenseIndexedContainer α ι) (pos : ι) :
    Option (DenseIndexedContainer α ι × ι) :=
  let raw := get_index_value S pos
  if raw < d.container_.length then
    some (⟨d.container_.eraseIdx raw⟩, S.make raw)
  else none

/-- `erase(index_type first, index_type last)`: erases the raw-position
range `[rawF, rawL)` (valid only for `rawF ≤ rawL ≤ size`) and returns
`index_type(distance(begin(), result_it))`, with the result iterator
`rawF` past the beginning of the shrunk container.  `none` models the
undefined behaviour on an invalid range. -/
def eraseRange (S : StrongIndexOps ι) (d : DenseIndexedContainer α ι)
    (first last : ι) : Option (DenseIndexedContainer α ι × ι) :=
  let rawF := get_index_value S first
  let rawL := get_index_value S last
  if rawF ≤ rawL ∧ rawL ≤ d.container_.length then
    some (⟨d.container_.take rawF ++ d.container_.drop rawL⟩, S.make rawF)
  else none

/-- `iterator_at(index_type idx)`: `begin() + get_index_value(idx)`.  An
iterator into the owned sequence container is modelled by its distance
from `begin()`. -/
def iterator_at (S : StrongIndexOps ι) (d : DenseIndexedContainer α ι)
    (idx : ι) : Nat :=
  get_index_value S idx

/-- `index_of(const_iterator it)`:
`index_type(static_cast<size_type>(distance(cbegin(), it)))`. -/
def index_of (S : StrongIndexOps ι) (d : DenseIndexedContainer α ι)
    (it : Nat) : ι :=
  S.make it

/-- `operator==`: `lhs.container_ == rhs.container_`, the underlying
container's own elementwise equality. -/
def beqOp [BEq α] (lhs rhs : DenseIndexedContainer α ι) : Bool :=
  lhs.container_ == rhs.container_

/-- `swap(other)`: exchanges the two owned containers. -/
def swap (lhs rhs : DenseIndexedContainer α ι) :
    DenseIndexedContainer α ι × DenseIndexedContainer α ι :=
  (⟨rhs.container_⟩, ⟨lhs.container_⟩)

end DenseIndexedContainer

/-- `push_back` iterated over a list of values, collecting the returned
indices in order. -/
def pushAll {α ι : Type} (S : StrongIndexOps ι)
    (d : DenseIndexedContainer α ι) : List α → DenseIndexedContainer α ι × List ι
  | [] => (d, [])
  | v :: vs =>
    let r := DenseIndexedContainer.push_back S d v
    let rest := pushAll S r.1 vs
    (rest.1, r.2 :: rest.2)

/-- The compile-time capability facts derived structurally from a
container type by the header's concepts: one field per structural
predicate.  `memberTypes` records the six member type aliases
(`value_type`, `reference`, `const_reference`, `size_type`, `iterator`,
`const_iterator`) and `beginEnd` the `begin()`/`end()` requirement, both
demanded by the `IndexableContainer` concept; the remaining fields record
the `Has...` capability concepts. -/
structure ContainerShape where
  memberTypes : Bool
  beginEnd : Bool
  indexOp : Bool
  hasAt : Bool
  sizeQuery : Bool
  emptyQuery : Bool
  capacityQuery : Bool
  reserveOp : Bool
  clearOp : Bool
  pushBackOp : Bool
  popBackOp : Bool
  emplaceBackOp : Bool
  frontOp : Bool
  backOp : Bool
  resizeOp : Bool
  insertOp : Bool
  eraseOp : Bool
  dataOp : Bool
  shrinkToFitOp : Bool
  reverseIter : Bool
deriving DecidableEq, Repr

/-- The `IndexableContainer` concept: the adapter is instantiable over a
container type iff the type provides the member type aliases, the
`begin()`/`end()` iteration pair, `HasIndexOperator` and `HasSize`. -/
def IndexableContainer (s : ContainerShape) : Bool :=
  s.memberTypes && s.beginEnd && s.indexOp && s.sizeQuery

/-- The adapter's methods, one constructor per capability-gated method
group of `DenseIndexedContainer`. -/
inductive AdapterMethod where
  | opIndexM | atM | frontM | backM | dataM | emptyM | sizeM | capacityM
  | reserveM | shrinkToFitM | clearM | insertM | eraseM | pushBackM
  | emplaceBackM | popBackM | resizeM | reverseIterM | indexOfM
  | iteratorAtM | underlyingM
deriving DecidableEq, Repr

/-- The `requires` clause gating each adapter method, read off the member
declarations of `DenseIndexedContainer`: `at` requires `HasAt`,
`push_back` requires `HasPushBack`, and so on; `size`, `begin`/`end`,
`index_of`, `iterator_at`, `underlying` and `operator[]` rest only on the
`IndexableContainer` minimum (with `operator[]` restating
`HasIndexOperator`, already part of that minimum). -/
def methodGate : AdapterMethod → ContainerShape → Bool
  | .opIndexM, s => s.indexOp
  | .atM, s => s.hasAt
  | .frontM, s => s.frontOp
  | .backM, s => s.backOp
  | .dataM, s => s.dataOp
  | .emptyM, s => s.emptyQuery
  | .sizeM, _ => true
  | .capacityM, s => s.capacityQuery
  | .reserveM, s => s.reserveOp
  | .shrinkToFitM, s => s.shrinkToFitOp
  | .clearM, s => s.clearOp
  | .insertM, s => s.insertOp
  | .eraseM, s => s.eraseOp
  | .pushBackM, s => s.pushBackOp
  | .emplaceBackM, s => s.emplaceBackOp
  | .popBackM, s => s.popBackOp
  | .resizeM, s => s.resizeOp
  | .reverseIterM, s => s.reverseIter
  | .indexOfM, _ => true
  | .iteratorAtM, _ => true
  | .underlyingM, _ => true

/-- A container shape implementing exactly the indexed-read and
size-query predicates and nothing else (no member type aliases, no
`begin()`/`end()`). -/
def shapeIndexSizeOnly : ContainerShape where
  memberTypes := false
  beginEnd := false
  indexOp := true
  hasAt := false
  sizeQuery := true
  emptyQuery := false
  capacityQuery := false
  reserveOp := false
  clearOp := false
  pushBackOp := false
  popBackOp := false
  emplaceBackOp := false
  frontOp := false
  backOp := false
  resizeOp := false
  insertOp := false
  eraseOp := false
  dataOp := false
  shrinkToFitOp := false
  reverseIter := false

/-- The minimum contract shape: member type aliases, `begin()`/`end()`,
indexed-read and size-query, with every optional capability absent. -/
def shapeMinimum : ContainerShape where
  memberTypes := true
  beginEnd := true
  indexOp := true
  hasAt := false
  sizeQuery := true
  emptyQuery := false
  capacityQuery := false
  reserveOp := false
  clearOp := false
  pushBackOp := false
  popBackOp := false
  emplaceBackOp := false
  frontOp := false
  backOp := false
  resizeOp := false
  insertOp := false
  eraseOp := false
  dataOp := false
  shrinkToFitOp := false
  reverseIter := false

/-!
Theorems settling the specification claims.
-/

/-- The numeral value of the `size_t` modulus, for arithmetic reasoning. -/
theorem sizeTMod_eq : sizeTMod = 18446744073709551616 := by
  norm_num [sizeTMod]

/-- Auxiliary: iterating `push_back` over the built-in strong index type
returns the indices of the consecutive end positions, starting at the
adapter's initial size. -/
theorem pushAll_values {α Tag : Type} (d : DenseIndexedContainer α (StrongIndex Tag))
    (vs : List α) :
    ((pushAll (StrongIndex.ops Tag) d vs).2).map StrongIndex.value
      = List.range' d.size vs.length := by
  induction vs generalizing d with
  | nil => simp [pushAll]
  | cons v vs ih =>
    simp only [pushAll, List.map_cons, List.length_cons, List.range'_succ,
      List.cons.injEq]
    refine ⟨?_, ?_⟩
    · simp [DenseIndexedContainer.push_back, StrongIndex.ops, StrongIndex.value,
        DenseIndexedContainer.size]
    · have h := ih ⟨d.container_ ++ [v]⟩
      simpa [DenseIndexedContainer.push_back, DenseIndexedContainer.size,
        Nat.add_comm] using h

/-- Claim C1: `push_back` and `emplace_back` return a new index whose raw
value equals `size - 1` measured after the insertion, and a sequence of
`N` appends into an empty adapter returns the indices `0, 1, ..., N-1` in
order. -/
theorem c1_append_index_convention {α Tag : Type}
    (d : DenseIndexedContainer α (StrongIndex Tag)) (v : α) (vs : List α) :
    ((d.push_back (StrongIndex.ops Tag) v).2.value
        = (d.push_back (StrongIndex.ops Tag) v).1.size - 1)
    ∧ ((d.emplace_back (StrongIndex.ops Tag) v).2.value
        = (d.emplace_back (StrongIndex.ops Tag) v).1.size - 1)
    ∧ (((pushAll (StrongIndex.ops Tag) ⟨[]⟩ vs).2).map StrongIndex.value
        = List.range vs.length) := by
  refine ⟨rfl, rfl, ?_⟩
  rw [List.range_eq_range']
  simpa [DenseIndexedContainer.size] using
    pushAll_values (⟨[]⟩ : DenseIndexedContainer α (StrongIndex Tag)) vs

/-- Claim C2: for an in-range bound index, `adapter[idx]` yields the same
element as directly accessing the underlying container at the raw
position extracted from `idx`, and the extraction follows the fixed
priority order: the get-shaped accessor first, else the value-shaped
accessor, else the numeric conversion. -/
theorem c2_subscript_forwards {α ι : Type} (S : StrongIndexOps ι)
    (d : DenseIndexedContainer α ι) (idx : ι)
    (h : get_index_value S idx < d.size) :
    (d.opIndex S idx = some (d.underlying.get ⟨get_index_value S idx, h⟩))
    ∧ (∀ g, S.getFn = some g → get_index_value S idx = g idx)
    ∧ (∀ v, S.getFn = none → S.valueFn = some v → get_index_value S idx = v idx)
    ∧ (∀ c, S.getFn = none → S.valueFn = none → S.convFn = some c →
        get_index_value S idx = c idx) := by
  refine ⟨?_, ?_, ?_, ?_⟩
  · simp [DenseIndexedContainer.opIndex, DenseIndexedContainer.underlying,
      List.getElem?_eq_getElem h]
  · intro g hg; simp [get_index_value, hg]
  · intro v hg hv; simp [get_index_value, hg, hv]
  · intro c hg hv hc; simp [get_index_value, hg, hv, hc]

/-- Witness for C2 at a concrete adapter: the element at extracted raw
position 1 of [10, 20, 30]. -/
theorem c2_subscript_forwards_witness :
    DenseIndexedContainer.opIndex (StrongIndex.ops Unit)
      (⟨[10, 20, 30]⟩ : DenseIndexedContainer Nat (StrongIndex Unit)) ⟨1⟩
      = some 20 := by
  have h := c2_subscript_forwards (StrongIndex.ops Unit)
    (⟨[10, 20, 30]⟩ : DenseIndexedContainer Nat (StrongIndex Unit)) ⟨1⟩ (by decide)
  exact h.1.trans (by decide)

/-- Claim C3: `erase(index)` and `erase(first, last)` perform the
positional erase and return the index immediately following the erased
range: the returned raw position equals the first erased position, and
the element found there in the shrunk container is the element that
immediately followed the erased range. -/
theorem c3_erase_returns_following {α Tag : Type}
    (d : DenseIndexedContainer α (StrongIndex Tag))
    (pos first last : StrongIndex Tag)
    (h1 : pos.value < d.size) (h2 : first.value ≤ last.value)
    (h3 : last.value ≤ d.size) :
    (d.erase (StrongIndex.ops Tag) pos
        = some (⟨d.container_.eraseIdx pos.value⟩, ⟨pos.value⟩))
    ∧ ((d.container_.eraseIdx pos.value)[pos.value]? = d.container_[pos.value + 1]?)
    ∧ (d.eraseRange (StrongIndex.ops Tag) first last
        = some (⟨d.container_.take first.value ++ d.container_.drop last.value⟩,
            ⟨first.value⟩))
    ∧ ((d.container_.take first.value ++ d.container_.drop last.value)[first.value]?
        = d.container_[last.value]?) := by
  have hf : first.value ≤ d.container_.length := le_trans h2 h3
  refine ⟨?_, ?_, ?_, ?_⟩
  · simp only [DenseIndexedContainer.erase, StrongIndex.ops, get_index_value,
      StrongIndex.get]
    exact if_pos h1
  · rw [List.eraseIdx_eq_take_drop_succ,
      List.getElem?_append_right (by rw [List.length_take_of_le (le_of_lt h1)]),
      List.length_take_of_le (le_of_lt h1), Nat.sub_self, List.getElem?_drop,
      Nat.add_zero]
  · simp only [DenseIndexedContainer.eraseRange, StrongIndex.ops, get_index_value,
      StrongIndex.get]
    exact if_pos ⟨h2, h3⟩
  · rw [List.getElem?_append_right (by rw [List.length_take_of_le hf]),
      List.length_take_of_le hf, Nat.sub_self, List.getElem?_drop, Nat.add_zero]

/-- Witness for C3 on the adapter over [1, 2, 3, 4]: erasing position 1
yields [1, 3, 4] with returned index 1, whose element 3 followed the
erased one; erasing the range [1, 3) yields [1, 4] with returned index 1,
whose element 4 followed the erased range. -/
theorem c3_erase_returns_following_witness :
    (DenseIndexedContainer.erase (StrongIndex.ops Unit)
        (⟨[1, 2, 3, 4]⟩ : DenseIndexedContainer Nat (StrongIndex Unit)) ⟨1⟩
      = some (⟨[1, 3, 4]⟩, ⟨1⟩))
    ∧ (DenseIndexedContainer.eraseRange (StrongIndex.ops Unit)
        (⟨[1, 2, 3, 4]⟩ : DenseIndexedContainer Nat (StrongIndex Unit)) ⟨1⟩ ⟨3⟩
      = some (⟨[1, 4]⟩, ⟨1⟩)) := by
  have h := c3_erase_returns_following
    (⟨[1, 2, 3, 4]⟩ : DenseIndexedContainer Nat (StrongIndex Unit)) ⟨1⟩ ⟨1⟩ ⟨3⟩
    (by decide) (by decide) (by decide)
  exact ⟨h.1.trans (by decide), h.2.2.1.trans (by decide)⟩

/-- Claim C4: `at(idx)` raises the underlying container's bounds
violation exactly when the extracted raw position is out of range, and
returns the element at that position when it is in range (the model is
pure, so the container is trivially unmodified); the third conjunct
records that `at` forwards verbatim to the underlying container's own
checked access. -/
theorem c4_at_bounds_checked {α ι : Type} (S : StrongIndexOps ι)
    (d : DenseIndexedContainer α ι) (idx : ι)
    (h : get_index_value S idx < d.size) :
    (d.at_ S idx = some (d.underlying.get ⟨get_index_value S idx, h⟩))
    ∧ (∀ jdx : ι, d.size ≤ get_index_value S jdx → d.at_ S jdx = none)
    ∧ (d.at_ S idx = d.underlying[get_index_value S idx]?) := by
  refine ⟨?_, ?_, rfl⟩
  · simp [DenseIndexedContainer.at_, DenseIndexedContainer.underlying,
      List.getElem?_eq_getElem h]
  · intro jdx hj
    simp only [DenseIndexedContainer.at_]
    exact List.getElem?_eq_none hj

/-- Witness for C4 on a size-2 adapter: `at` on raw position 0 returns
the element and `at` on raw position 2 (= size) raises the bounds
violation. -/
theorem c4_at_bounds_checked_witness :
    (DenseIndexedContainer.at_ (StrongIndex.ops Unit)
        (⟨[7, 8]⟩ : DenseIndexedContainer Nat (StrongIndex Unit)) ⟨0⟩ = some 7)
    ∧ (DenseIndexedContainer.at_ (StrongIndex.ops Unit)
        (⟨[7, 8]⟩ : DenseIndexedContainer Nat (StrongIndex Unit)) ⟨2⟩ = none) := by
  have h := c4_at_bounds_checked (StrongIndex.ops Unit)
    (⟨[7, 8]⟩ : DenseIndexedContainer Nat (StrongIndex Unit)) ⟨0⟩ (by decide)
  exact ⟨h.1.trans (by decide), h.2.1 ⟨2⟩ (by decide)⟩

/-- Claim C6: `iterator_at` offsets the beginning by the index's raw
position and `index_of` measures the distance back, so their composition
is the identity on indices whose raw position is within the container
size. -/
theorem c6_index_of_iterator_at {α Tag : Type}
    (d : DenseIndexedContainer α (StrongIndex Tag)) (idx : StrongIndex Tag)
    (h : idx.value < d.size) :
    (d.index_of (StrongIndex.ops Tag) (d.iterator_at (StrongIndex.ops Tag) idx) = idx)
    ∧ (d.iterator_at (StrongIndex.ops Tag) idx = idx.value) :=
  ⟨by cases idx; rfl, rfl⟩

/-- Witness for C6 on the adapter over [5, 6] at the in-range index 1. -/
theorem c6_index_of_iterator_at_witness :
    DenseIndexedContainer.index_of (StrongIndex.ops Unit)
      (⟨[5, 6]⟩ : DenseIndexedContainer Nat (StrongIndex Unit))
      (DenseIndexedContainer.iterator_at (StrongIndex.ops Unit)
        (⟨[5, 6]⟩ : DenseIndexedContainer Nat (StrongIndex Unit)) ⟨1⟩)
      = ⟨1⟩ :=
  (c6_index_of_iterator_at
    (⟨[5, 6]⟩ : DenseIndexedContainer Nat (StrongIndex Unit)) ⟨1⟩ (by decide)).1

/-- Claim C7: `insert(index, value)` translates the index to its raw
position, inserts there, and returns the index of the resulting element,
which for a growable sequence equals the raw position of the given index;
the element found at the returned index is the inserted value. -/
theorem c7_insert_returns_position {α Tag : Type}
    (d : DenseIndexedContainer α (StrongIndex Tag)) (pos : StrongIndex Tag)
    (v : α) (h : pos.value ≤ d.size) :
    (d.insert (StrongIndex.ops Tag) pos v
        = some (⟨d.container_.insertIdx pos.value v⟩, ⟨pos.value⟩))
    ∧ ((d.container_.insertIdx pos.value v)[pos.value]? = some v) := by
  constructor
  · simp only [DenseIndexedContainer.insert, StrongIndex.ops, get_index_value,
      StrongIndex.get]
    exact if_pos h
  · have hlen : pos.value < (d.container_.insertIdx pos.value v).length := by
      rw [List.length_insertIdx _ _ h]; exact Nat.lt_succ_of_le h
    rw [List.getElem?_eq_getElem hlen, List.getElem_insertIdx_self _ _ _ h]

/-- Witness for C7: inserting 3 at index 2 of the adapter over [1, 2, 4]
yields [1, 2, 3, 4] with returned index 2, and the element at raw
position 2 is the inserted 3. -/
theorem c7_insert_returns_position_witness :
    (DenseIndexedContainer.insert (StrongIndex.ops Unit)
        (⟨[1, 2, 4]⟩ : DenseIndexedContainer Nat (StrongIndex Unit)) ⟨2⟩ 3
      = some (⟨[1, 2, 3, 4]⟩, ⟨2⟩))
    ∧ (([1, 2, 4].insertIdx 2 3)[2]? = some 3) := by
  have h := c7_insert_returns_position
    (⟨[1, 2, 4]⟩ : DenseIndexedContainer Nat (StrongIndex Unit)) ⟨2⟩ 3 (by decide)
  exact ⟨h.1.trans (by decide), h.2⟩

/-- Claim C8: two adapters with the same underlying container type and
bound index type compare equal exactly when their underlying containers
compare equal (equivalently, exactly when the adapters are the same
value), and changing one element breaks equality. -/
theorem c8_equality_forwards {α ι : Type} [BEq α] [LawfulBEq α]
    (lhs rhs : DenseIndexedContainer α ι) (l : List α) (i : Nat) (v : α)
    (hi : i < l.length) (hne : l.get ⟨i, hi⟩ ≠ v) :
    (DenseIndexedContainer.beqOp lhs rhs = true ↔ lhs.underlying = rhs.underlying)
    ∧ (DenseIndexedContainer.beqOp lhs rhs = true ↔ lhs = rhs)
    ∧ (DenseIndexedContainer.beqOp (⟨l⟩ : DenseIndexedContainer α ι) ⟨l.set i v⟩
        = false) := by
  refine ⟨?_, ?_, ?_⟩
  · simp [DenseIndexedContainer.beqOp, DenseIndexedContainer.underlying]
  · cases lhs; cases rhs
    simp [DenseIndexedContainer.beqOp, DenseIndexedContainer.mk.injEq]
  · rw [DenseIndexedContainer.beqOp, beq_eq_false_iff_ne]
    intro hset
    apply hne
    have hcong := congrArg (fun t => t[i]?) hset
    simp only [List.getElem?_eq_getElem hi, List.getElem?_set_self hi,
      Option.some.injEq] at hcong
    simpa [List.get_eq_getElem] using hcong

/-- Witness for C8 on concrete adapters over [1, 2]: equal containers
give equal adapters, and setting position 0 to 5 breaks equality. -/
theorem c8_equality_forwards_witness :
    (DenseIndexedContainer.beqOp
        (⟨[1, 2]⟩ : DenseIndexedContainer Nat (StrongIndex Unit)) ⟨[1, 2]⟩ = true)
    ∧ (DenseIndexedContainer.beqOp
        (⟨[1, 2]⟩ : DenseIndexedContainer Nat (StrongIndex Unit))
        ⟨[1, 2].set 0 5⟩ = false) := by
  have h := c8_equality_forwards
    (⟨[1, 2]⟩ : DenseIndexedContainer Nat (StrongIndex Unit)) ⟨[1, 2]⟩
    [1, 2] 0 5 (by decide) (by decide)
  exact ⟨h.1.mpr rfl, h.2.2⟩

/-- Auxiliary: `value()` reads the stored field `value_`. -/
theorem StrongIndex.value_eq {Tag : Type} (i : StrongIndex Tag) :
    i.value = i.value_ := rfl

/-- Auxiliary: construction from a raw position stores it verbatim. -/
theorem StrongIndex.mk_val {Tag : Type} (v : Nat) :
    (StrongIndex.mk v : StrongIndex Tag).value_ = v := rfl

/-- Auxiliary: the raw position after pre-increment. -/
theorem StrongIndex.preInc_val {Tag : Type} (i : StrongIndex Tag) :
    (i.preInc.1).value_ = (i.value_ + 1) % sizeTMod := rfl

/-- Auxiliary: the raw position after post-increment. -/
theorem StrongIndex.postInc_val {Tag : Type} (i : StrongIndex Tag) :
    (i.postInc.1).value_ = (i.value_ + 1) % sizeTMod := rfl

/-- Auxiliary: the raw position after pre-decrement. -/
theorem StrongIndex.preDec_val {Tag : Type} (i : StrongIndex Tag) :
    (i.preDec.1).value_ = (i.value_ + (sizeTMod - 1)) % sizeTMod := rfl

/-- Auxiliary: the raw position after post-decrement. -/
theorem StrongIndex.postDec_val {Tag : Type} (i : StrongIndex Tag) :
    (i.postDec.1).value_ = (i.value_ + (sizeTMod - 1)) % sizeTMod := rfl

/-- Auxiliary: the raw position after adding a raw offset. -/
theorem StrongIndex.addOffset_val {Tag : Type} (i : StrongIndex Tag) (n : Nat) :
    (i.addOffset n).value_ = (i.value_ + n) % sizeTMod := rfl

/-- Auxiliary: the raw position after subtracting a raw offset. -/
theorem StrongIndex.subOffset_val {Tag : Type} (i : StrongIndex Tag) (n : Nat) :
    (i.subOffset n).value_ = (i.value_ + (sizeTMod - n % sizeTMod)) % sizeTMod := rfl

/-- Claim C9: the four increment and decrement operators mutate the
stored raw position by plus or minus one (away from the wraparound
boundaries); the pre forms return the updated index, the post forms
return the original index — in each case a same-domain index one away
from the other state. -/
theorem c9_increment_decrement {Tag : Type} (i : StrongIndex Tag)
    (h1 : i.value + 1 < sizeTMod) (h2 : 0 < i.value) :
    (i.preInc.1.value = i.value + 1 ∧ i.preInc.2 = i.preInc.1)
    ∧ (i.postInc.1.value = i.value + 1 ∧ i.postInc.2 = i)
    ∧ (i.preDec.1.value = i.value - 1 ∧ i.preDec.2 = i.preDec.1)
    ∧ (i.postDec.1.value = i.value - 1 ∧ i.postDec.2 = i) := by
  rw [StrongIndex.value_eq] at h1 h2
  rw [sizeTMod_eq] at h1
  refine ⟨⟨?_, rfl⟩, ⟨?_, rfl⟩, ⟨?_, rfl⟩, ⟨?_, rfl⟩⟩
  · rw [StrongIndex.value_eq, StrongIndex.value_eq, StrongIndex.preInc_val,
      sizeTMod_eq]
    omega
  · rw [StrongIndex.value_eq, StrongIndex.value_eq, StrongIndex.postInc_val,
      sizeTMod_eq]
    omega
  · rw [StrongIndex.value_eq, StrongIndex.value_eq, StrongIndex.preDec_val,
      sizeTMod_eq]
    omega
  · rw [StrongIndex.value_eq, StrongIndex.value_eq, StrongIndex.postDec_val,
      sizeTMod_eq]
    omega

/-- Witness for C9 at the concrete index 5: both increments move the
state to 6 (the pre form returning the updated index, the post form the
original), both decrements move it to 4. -/
theorem c9_increment_decrement_witness :
    ((StrongIndex.preInc (⟨5⟩ : StrongIndex Unit)).1.value = 6
      ∧ (StrongIndex.preInc (⟨5⟩ : StrongIndex Unit)).2
          = (StrongIndex.preInc (⟨5⟩ : StrongIndex Unit)).1)
    ∧ ((StrongIndex.postInc (⟨5⟩ : StrongIndex Unit)).1.value = 6
      ∧ (StrongIndex.postInc (⟨5⟩ : StrongIndex Unit)).2 = ⟨5⟩)
    ∧ ((StrongIndex.preDec (⟨5⟩ : StrongIndex Unit)).1.value = 4
      ∧ (StrongIndex.preDec (⟨5⟩ : StrongIndex Unit)).2
          = (StrongIndex.preDec (⟨5⟩ : StrongIndex Unit)).1)
    ∧ ((StrongIndex.postDec (⟨5⟩ : StrongIndex Unit)).1.value = 4
      ∧ (StrongIndex.postDec (⟨5⟩ : StrongIndex Unit)).2 = ⟨5⟩) := by
  have h := c9_increment_decrement (⟨5⟩ : StrongIndex Unit)
    (by rw [StrongIndex.value_eq, StrongIndex.mk_val, sizeTMod_eq]; omega)
    (by rw [StrongIndex.value_eq, StrongIndex.mk_val]; omega)
  exact ⟨⟨h.1.1.trans (by decide), h.1.2⟩, ⟨h.2.1.1.trans (by decide), h.2.1.2⟩,
    ⟨h.2.2.1.1.trans (by decide), h.2.2.1.2⟩,
    ⟨h.2.2.2.1.trans (by decide), h.2.2.2.2⟩⟩

/-- Claim C10: strong-index arithmetic with a raw offset is unsigned
modular arithmetic: addition yields `(v + n) mod 2^64`, subtraction
yields `(v - n) mod 2^64` (the integer remainder), the compound
assignments agree with the binary operators, and subtracting or
decrementing past zero wraps around to `2^64 - 1`. -/
theorem c10_modular_arithmetic {Tag : Type} (i : StrongIndex Tag) (n : Nat) :
    ((i.addOffset n).value = (i.value + n) % sizeTMod)
    ∧ ((i.addOffset n).value
        = (((i.value : Int) + (n : Int)) % (sizeTMod : Int)).toNat)
    ∧ ((i.subOffset n).value
        = (((i.value : Int) - (n : Int)) % (sizeTMod : Int)).toNat)
    ∧ (i.addAssign n = i.addOffset n)
    ∧ (i.subAssign n = i.subOffset n)
    ∧ ((StrongIndex.subOffset (⟨0⟩ : StrongIndex Tag) 1).value = sizeTMod - 1)
    ∧ ((StrongIndex.preDec (⟨0⟩ : StrongIndex Tag)).1.value = sizeTMod - 1) := by
  refine ⟨?_, ?_, ?_, rfl, rfl, ?_, ?_⟩
  · rw [StrongIndex.value_eq, StrongIndex.value_eq, StrongIndex.addOffset_val]
  · rw [StrongIndex.value_eq, StrongIndex.value_eq, StrongIndex.addOffset_val,
      sizeTMod_eq]
    omega
  · rw [StrongIndex.value_eq, StrongIndex.value_eq, StrongIndex.subOffset_val,
      sizeTMod_eq]
    omega
  · rw [StrongIndex.value_eq, StrongIndex.subOffset_val, StrongIndex.mk_val,
      sizeTMod_eq]
  · rw [StrongIndex.value_eq, StrongIndex.preDec_val, StrongIndex.mk_val,
      sizeTMod_eq]

/-- Counterexample for C5: a container shape satisfying exactly the
indexed-read and size-query predicates — but not the member type aliases
or the begin/end iteration pair — does not satisfy `IndexableContainer`,
so the adapter is not instantiable over it. -/
theorem c5_counterexample :
    ((shapeIndexSizeOnly.indexOp && shapeIndexSizeOnly.sizeQuery) = true)
    ∧ (IndexableContainer shapeIndexSizeOnly = false) := by
  decide

/-- Claim C5 (amended): the minimum contract for the adapter to be
instantiable is the member type aliases, the begin/end iteration pair,
and the indexed-read and size-query predicates; a shape with exactly
those and nothing else is instantiable, every other adapter method is
gated on its own capability predicate, and the gates never consult the
member-type or begin/end facts that distinguish the two minimal
shapes. -/
theorem c5_minimum_contract :
    (∀ s : ContainerShape,
        IndexableContainer s
          = (s.memberTypes && s.beginEnd && s.indexOp && s.sizeQuery))
    ∧ (IndexableContainer shapeMinimum = true)
    ∧ (∀ s : ContainerShape, methodGate .atM s = s.hasAt)
    ∧ (∀ s : ContainerShape, methodGate .emptyM s = s.emptyQuery)
    ∧ (∀ s : ContainerShape, methodGate .capacityM s = s.capacityQuery)
    ∧ (∀ s : ContainerShape, methodGate .reserveM s = s.reserveOp)
    ∧ (∀ s : ContainerShape, methodGate .clearM s = s.clearOp)
    ∧ (∀ s : ContainerShape, methodGate .shrinkToFitM s = s.shrinkToFitOp)
    ∧ (∀ s : ContainerShape, methodGate .pushBackM s = s.pushBackOp)
    ∧ (∀ s : ContainerShape, methodGate .popBackM s = s.popBackOp)
    ∧ (∀ s : ContainerShape, methodGate .emplaceBackM s = s.emplaceBackOp)
    ∧ (∀ s : ContainerShape, methodGate .frontM s = s.frontOp)
    ∧ (∀ s : ContainerShape, methodGate .backM s = s.backOp)
    ∧ (∀ s : ContainerShape, methodGate .resizeM s = s.resizeOp)
    ∧ (∀ s : ContainerShape, methodGate .insertM s = s.insertOp)
    ∧ (∀ s : ContainerShape, methodGate .eraseM s = s.eraseOp)
    ∧ (∀ s : ContainerShape, methodGate .dataM s = s.dataOp)
    ∧ (∀ s : ContainerShape, methodGate .reverseIterM s = s.reverseIter)
    ∧ (∀ m : AdapterMethod,
        methodGate m shapeIndexSizeOnly = methodGate m shapeMinimum) := by
  refine ⟨fun s => rfl, rfl, fun s => rfl, fun s => rfl, fun s => rfl, fun s => rfl,
    fun s => rfl, fun s => rfl, fun s => rfl, fun s => rfl, fun s => rfl, fun s => rfl,
    fun s => rfl, fun s => rfl, fun s => rfl, fun s => rfl, fun s => rfl, fun s => rfl,
    fun m => ?_⟩
  cases m <;> rfl

end DenseIndex
